import Mathlib

/-!
Verification development for the toadbox-manager instance/registry core
(`src/toadbox_manager/models.py` and `src/toadbox_manager/app.py`).

The Python source is shallowly embedded: dataclasses become structures,
JSON payloads become an inductive `Json` value, dict payloads become
association lists with unique keys, and the async lifecycle handlers become
pure functions that take the outcome of each external `docker compose`
invocation as a parameter and return the trace of observable events
(status assignments, runtime actions, registry saves, error displays)
together with the resulting in-memory state.
-/

/-! ## Character and string utilities

These model the pieces of Python string/`re`/`pathlib` behaviour used by
`models.py`.  All inputs that the claims exercise are ASCII; `Char.toLower`
agrees with Python `str.lower` on ASCII.  -/

/-- A character matched by Python's regex class `[0-9a-zA-Z]`. -/
def isAlnumAscii (c : Char) : Bool :=
  c.isDigit || c.isUpper || c.isLower

/-- Core of `re.sub(r"[^0-9a-zA-Z]+", repl, s)`: every maximal run of
characters outside `[0-9a-zA-Z]` is replaced by a single `repl` character.
The boolean records whether the previous character was part of such a run. -/
def collapseAux (repl : Char) : Bool → List Char → List Char
  | _, [] => []
  | inRun, c :: cs =>
    if isAlnumAscii c then c :: collapseAux repl false cs
    else if inRun then collapseAux repl true cs
    else repl :: collapseAux repl true cs

/-- Python `str.strip(t)` for a single-character strip set: remove leading and
trailing occurrences of `t`. -/
def stripChar (t : Char) (l : List Char) : List Char :=
  ((l.dropWhile (· == t)).reverse.dropWhile (· == t)).reverse

/-- Python `str.lower()` applied charwise (ASCII case mapping, as used by the
sanitizers whose alphabet is `[0-9a-zA-Z_]` resp. ASCII path names). -/
def asciiLower (l : List Char) : List Char :=
  l.map Char.toLower

/-- Splitting a character list at a separator, Python `str.split(sep)` style
(empty segments are kept). -/
def splitOnChar (sep : Char) : List Char → List (List Char)
  | [] => [[]]
  | c :: cs =>
    let r := splitOnChar sep cs
    if c == sep then [] :: r
    else
      match r with
      | [] => [[c]]
      | x :: xs => (c :: x) :: xs

/-- Python `pathlib.Path(p).name`: the final path component.  `pathlib` drops
empty components and `"."` components when parsing, and `name` is the last
remaining component (or `""` when none remains). -/
def pathName (p : String) : String :=
  String.mk (((splitOnChar '/' p.toList).filter
    (fun part => !part.isEmpty && part != ['.'])).getLastD [])

/-- Python `str.replace("-", "_")` (single-character pattern, hence charwise). -/
def replaceDashUnderscore (s : String) : String :=
  String.mk (s.toList.map (fun c => if c == '-' then '_' else c))

/-- `beginsWith n h`: `n` is an initial segment of `h`. -/
def beginsWith : List Char → List Char → Bool
  | [], _ => true
  | _ :: _, [] => false
  | a :: as, b :: bs => a == b && beginsWith as bs

/-- `hasSubstring n h`: `n` occurs contiguously inside `h`. -/
def hasSubstring (needle : List Char) : List Char → Bool
  | [] => needle.isEmpty
  | c :: t => beginsWith needle (c :: t) || hasSubstring needle t

/-! ## `models.py`: `InstanceStatus` and `ToadboxInstance` -/

/-- `InstanceStatus` enum from `models.py`. -/
inductive InstanceStatus where
  | stopped
  | running
  | starting
  | stopping
  | error
deriving DecidableEq

/-- The `.value` string of each enum member. -/
def InstanceStatus.value : InstanceStatus → String
  | .stopped => "stopped"
  | .running => "running"
  | .starting => "starting"
  | .stopping => "stopping"
  | .error => "error"

/-- The `InstanceStatus(v)` enum constructor: `some` member whose value is `v`,
`none` models the `ValueError` raised on any other argument. -/
def InstanceStatus.ofValue? : String → Option InstanceStatus
  | "stopped" => some .stopped
  | "running" => some .running
  | "starting" => some .starting
  | "stopping" => some .stopping
  | "error" => some .error
  | _ => none

/-- JSON values as produced by `json.load` / consumed by `json.dump`
(numbers restricted to integers, which is all the registry file uses). -/
inductive Json where
  | jnull
  | jbool (b : Bool)
  | jint (n : Int)
  | jstr (s : String)
  | jarr (elems : List Json)
  | jobj (fields : List (String × Json))

/-- The `ToadboxInstance` dataclass from `models.py`, with its field defaults. -/
structure ToadboxInstance where
  name : String
  workspace_folder : String
  cpu_cores : Int := 2
  memory_mb : Int := 4096
  priority : String := "low"
  ssh_port : Int := 2222
  rdp_port : Int := 3390
  puid : Int := 1000
  pgid : Int := 1000
  status : InstanceStatus := .stopped
  compose_file : Option String := none
  container_id : Option String := none
deriving DecidableEq

/-- `ToadboxInstance.service_name` property:
`re.sub(r"[^0-9a-zA-Z]+", "_", base).strip("_").lower()` over the instance
name (falling back to the workspace folder basename when the name is empty),
and when that sanitization comes out empty, the workspace folder basename
with `-` replaced by `_`, lowercased. -/
def ToadboxInstance.service_name (inst : ToadboxInstance) : String :=
  let base := if inst.name ≠ "" then inst.name else pathName inst.workspace_folder
  let sanitized := String.mk (asciiLower (stripChar '_' (collapseAux '_' false base.toList)))
  if sanitized ≠ "" then sanitized
  else String.mk (asciiLower (replaceDashUnderscore (pathName inst.workspace_folder)).toList)

/-- `ToadboxInstance.hostname` property: the same sanitization with `-` as the
replacement character, prefixed with `"toadbox-"`. -/
def ToadboxInstance.hostname (inst : ToadboxInstance) : String :=
  let base := if inst.name ≠ "" then inst.name else pathName inst.workspace_folder
  "toadbox-" ++ String.mk (asciiLower (stripChar '-' (collapseAux '-' false base.toList)))

/-- Dict key lookup (`k in payload` / `payload[k]`) on an association list with
unique keys (Python dict semantics). -/
def lookupKey (payload : List (String × Json)) (k : String) : Option Json :=
  (payload.find? (fun p => p.1 == k)).map (·.2)

/-- Dict key removal (`payload.pop(k, None)`): keys are unique, so filtering
the key out is exactly removal. -/
def eraseKey {α : Type} (payload : List (String × α)) (k : String) : List (String × α) :=
  payload.filter (fun p => p.1 != k)

/-- `ToadboxInstance.to_dict`: `asdict(self)` (the twelve dataclass fields, in
declaration order) with `status` re-serialized to its `.value` string. -/
def ToadboxInstance.to_dict (inst : ToadboxInstance) : List (String × Json) :=
  [("name", .jstr inst.name),
   ("workspace_folder", .jstr inst.workspace_folder),
   ("cpu_cores", .jint inst.cpu_cores),
   ("memory_mb", .jint inst.memory_mb),
   ("priority", .jstr inst.priority),
   ("ssh_port", .jint inst.ssh_port),
   ("rdp_port", .jint inst.rdp_port),
   ("puid", .jint inst.puid),
   ("pgid", .jint inst.pgid),
   ("status", .jstr inst.status.value),
   ("compose_file", match inst.compose_file with | some s => .jstr s | none => .jnull),
   ("container_id", match inst.container_id with | some s => .jstr s | none => .jnull)]

/-- Reading a required `str` dataclass field out of the payload for
`cls(**payload)`; a missing required field is a `TypeError`. -/
def getStrField (payload : List (String × Json)) (k : String) : Except String String :=
  match lookupKey payload k with
  | some (.jstr s) => .ok s
  | some _ => .error ("TypeError: field " ++ k)
  | none => .error ("TypeError: missing required argument " ++ k)

/-- Reading an optional `int` dataclass field (with default) out of the payload. -/
def getIntFieldD (payload : List (String × Json)) (k : String) (d : Int) : Except String Int :=
  match lookupKey payload k with
  | some (.jint n) => .ok n
  | some _ => .error ("TypeError: field " ++ k)
  | none => .ok d

/-- Reading an optional `str` dataclass field (with default) out of the payload. -/
def getStrFieldD (payload : List (String × Json)) (k : String) (d : String) : Except String String :=
  match lookupKey payload k with
  | some (.jstr s) => .ok s
  | some _ => .error ("TypeError: field " ++ k)
  | none => .ok d

/-- Reading an `Optional[str]` dataclass field (default `None`). -/
def getOptStrField (payload : List (String × Json)) (k : String) :
    Except String (Option String) :=
  match lookupKey payload k with
  | some (.jstr s) => .ok (some s)
  | some .jnull => .ok none
  | some _ => .error ("TypeError: field " ++ k)
  | none => .ok none

/-- The dataclass field names accepted by `ToadboxInstance(**payload)`
(`status` having already been handled by `from_dict`). -/
def toadboxFieldNames : List String :=
  ["name", "workspace_folder", "cpu_cores", "memory_mb", "priority",
   "ssh_port", "rdp_port", "puid", "pgid", "status", "compose_file", "container_id"]

/-- `ToadboxInstance.from_dict`: parse `status` (raising `ValueError` on an
unknown value), default it to `STOPPED` when absent, rename a legacy
`vnc_port` key to `rdp_port` when the latter is absent, pop the derived
`service_name`/`hostname` keys, and call `cls(**payload)` — which raises
`TypeError` on any remaining unknown keyword.  Raised exceptions are
modelled as `Except.error`. -/
def ToadboxInstance.from_dict (data : List (String × Json)) :
    Except String ToadboxInstance := do
  let st ←
    match lookupKey data "status" with
    | some (.jstr s) =>
      match InstanceStatus.ofValue? s with
      | some st => Except.ok st
      | none => Except.error ("ValueError: " ++ s ++ " is not a valid InstanceStatus")
    | some _ => Except.error "ValueError: not a valid InstanceStatus"
    | none => Except.ok InstanceStatus.stopped
  let payload := eraseKey data "status"
  let payload :=
    if (lookupKey payload "vnc_port").isSome && (lookupKey payload "rdp_port").isNone then
      payload.map (fun p => if p.1 == "vnc_port" then ("rdp_port", p.2) else p)
    else payload
  let payload := eraseKey (eraseKey payload "service_name") "hostname"
  if payload.any (fun p => !(toadboxFieldNames.contains p.1)) then
    Except.error "TypeError: unexpected keyword argument"
  else do
    let name ← getStrField payload "name"
    let workspace_folder ← getStrField payload "workspace_folder"
    let cpu_cores ← getIntFieldD payload "cpu_cores" 2
    let memory_mb ← getIntFieldD payload "memory_mb" 4096
    let priority ← getStrFieldD payload "priority" "low"
    let ssh_port ← getIntFieldD payload "ssh_port" 2222
    let rdp_port ← getIntFieldD payload "rdp_port" 3390
    let puid ← getIntFieldD payload "puid" 1000
    let pgid ← getIntFieldD payload "pgid" 1000
    let compose_file ← getOptStrField payload "compose_file"
    let container_id ← getOptStrField payload "container_id"
    Except.ok { name, workspace_folder, cpu_cores, memory_mb, priority,
                ssh_port, rdp_port, puid, pgid, status := st,
                compose_file, container_id }

/-! ## `app.py`: registry load and create -/

/-- The observable state of the registry file when `load_config` runs:
missing, unreadable (`OSError`), present but not valid JSON
(`json.JSONDecodeError`), or successfully parsed JSON. -/
inductive FileState where
  | missing
  | osError
  | badJson
  | content (j : Json)

/-- `InstanceManagerApp.load_config`: `self.instances` starts out empty; a
missing file returns early, `OSError`/`JSONDecodeError` are caught and leave
the registry empty, and otherwise the instances mapping is rebuilt with
`ToadboxInstance.from_dict` on each payload.  Exceptions raised inside the
comprehension (`AttributeError` on a non-dict top level, `TypeError` on a
non-dict payload, and any `ValueError`/`TypeError` out of `from_dict`) are
not in the `except` clause and propagate, modelled as `Except.error`. -/
def load_config (fs : FileState) : Except String (List (String × ToadboxInstance)) :=
  match fs with
  | .missing => .ok []
  | .osError => .ok []
  | .badJson => .ok []
  | .content (Json.jobj fields) =>
    match (lookupKey fields "instances").getD (Json.jobj []) with
    | Json.jobj entries =>
      entries.mapM (fun p =>
        match p.2 with
        | Json.jobj payload => (ToadboxInstance.from_dict payload).map (fun i => (p.1, i))
        | _ => Except.error "TypeError: payload is not a dict")
    | _ => Except.error "AttributeError: no attribute items"
  | .content _ => Except.error "AttributeError: no attribute get"

/-- The conflict list built by `create_instance` for one existing record:
`"SSH"` when the SSH ports coincide, then `"RDP"` when the RDP ports do. -/
def conflictRoles (existing inst : ToadboxInstance) : List String :=
  (if existing.ssh_port = inst.ssh_port then ["SSH"] else []) ++
  (if existing.rdp_port = inst.rdp_port then ["RDP"] else [])

/-- The first existing record (in registry insertion order) whose conflict
list with the new instance is non-empty, paired with that list — the record
whose name `create_instance`'s loop reports. -/
def portConflict? (insts : List (String × ToadboxInstance)) (inst : ToadboxInstance) :
    Option (String × List String) :=
  insts.findSome? (fun p =>
    if conflictRoles p.2 inst ≠ [] then some (p.1, conflictRoles p.2 inst) else none)

/-- The diagnostic string `f"Ports already in use by '{existing_name}' ({ports})"`. -/
def conflictMsg (existingName : String) (roles : List String) : String :=
  "Ports already in use by '" ++ existingName ++ "' (" ++ String.intercalate ", " roles ++ ")"

/-- `InstanceManagerApp.create_instance` as a pure function on the registry:
returns the new registry, whether `save_config` ran, and the error message
shown (if any).  Port conflicts are checked first, then a duplicate name;
only the success path inserts the record and persists. -/
def create_instance (insts : List (String × ToadboxInstance)) (inst : ToadboxInstance) :
    List (String × ToadboxInstance) × Bool × Option String :=
  match portConflict? insts inst with
  | some (n, roles) => (insts, false, some (conflictMsg n roles))
  | none =>
    if insts.any (fun p => p.1 == inst.name) then
      (insts, false, some ("Instance '" ++ inst.name ++ "' already exists"))
    else
      (insts ++ [(inst.name, inst)], true, none)

/-! ## `app.py`: port suggestion -/

/-- The `while port in used: port += 1` scan of `suggest_ports`.  The loop
terminates because each visited port is a distinct member of `used`; the
callers below pass `used.length + 1` fuel, which is enough (proved later). -/
def findFreePort : Nat → List Int → Int → Int
  | 0, _, p => p
  | fuel + 1, used, p => if p ∈ used then findFreePort fuel used (p + 1) else p

/-- `InstanceManagerApp.suggest_ports`: per-role linear scans upward from the
given bases, skipping ports used by existing instances in that role. -/
def suggest_ports (insts : List ToadboxInstance) (ssh_start rdp_start : Int) : Int × Int :=
  let used_ssh := insts.map (·.ssh_port)
  let used_rdp := insts.map (·.rdp_port)
  (findFreePort (used_ssh.length + 1) used_ssh ssh_start,
   findFreePort (used_rdp.length + 1) used_rdp rdp_start)

/-! ## `app.py`: compose manifest build -/

/-- One service definition of `_build_compose_spec` (the fixed `version`,
`networks` and per-service shape are captured in `ComposeSpec`/`buildService`). -/
structure ComposeService where
  image : String
  container_name : String
  hostname : String
  restart : String
  environment : List String
  ports : List String
  volumes : List String
  networks : List String
  privileged : Bool
  cpus : String
  memory : String
deriving DecidableEq

/-- Python dict assignment `m[k] = v`: overwrite in place when the key exists,
append otherwise. -/
def insertKey {α : Type} (m : List (String × α)) (k : String) (v : α) :
    List (String × α) :=
  if m.any (fun p => p.1 == k) then m.map (fun p => if p.1 == k then (k, v) else p)
  else m ++ [(k, v)]

/-- The service dict `_build_compose_spec` emits for one instance. -/
def buildService (inst : ToadboxInstance) : ComposeService :=
  let sn := inst.service_name
  { image := "toadbox"
    container_name := inst.hostname
    hostname := inst.hostname
    restart := "unless-stopped"
    environment := ["PUID=" ++ toString inst.puid, "PGID=" ++ toString inst.pgid,
                    "TERM=xterm-256color", "DISPLAY=:1"]
    ports := [toString inst.ssh_port ++ ":22", toString inst.rdp_port ++ ":3389"]
    volumes := [inst.workspace_folder ++ ":/workspace",
                sn ++ "_docker_data:/var/lib/docker",
                sn ++ "_home:/home/agent"]
    networks := ["toadbox_network"]
    privileged := true
    cpus := toString inst.cpu_cores
    memory := toString inst.memory_mb ++ "M" }

/-- The whole compose dict: fixed version, services and volumes accumulated
over the registry values, one shared bridge network. -/
structure ComposeSpec where
  version : String
  services : List (String × ComposeService)
  volumes : List (String × String)
  networks : List String
deriving DecidableEq

/-- `InstanceManagerApp._build_compose_spec`: iterate the registry values,
keying the `services` dict by `service_name` and registering the two named
volumes per service. -/
def build_compose_spec (insts : List ToadboxInstance) : ComposeSpec :=
  let acc := insts.foldl
    (fun (acc : List (String × ComposeService) × List (String × String)) inst =>
      let sn := inst.service_name
      (insertKey acc.1 sn (buildService inst),
       insertKey (insertKey acc.2 (sn ++ "_docker_data") (sn ++ "_docker_data"))
         (sn ++ "_home") (sn ++ "_home")))
    ([], [])
  { version := "3.8", services := acc.1, volumes := acc.2,
    networks := ["toadbox_network"] }

/-! ## `app.py`: lifecycle flows as event traces

`_run_compose` writes the compose file, resolves a `docker compose` binding
and invokes one action; the outcome of that external invocation — success
flag and captured diagnostic (stderr, falling back to stdout, trimmed; or
`"docker compose not found"` when no binding resolves) — is passed to the
flows as parameters.  Each flow returns the ordered list of its observable
events together with the resulting in-memory state. -/

inductive Event where
  | setStatus (s : InstanceStatus)
  | refreshTable
  | writeCompose
  | runAction (action : String)
  | saveConfig
  | showError (msg : String)
deriving DecidableEq

/-- `_stop_async`: set `STOPPING`, refresh, invoke `stop`; on success set
`STOPPED` and persist, on failure set `ERROR` and surface the diagnostic;
refresh again.  Returns (events, final status of the record). -/
def stopAsyncRun (stopOk : Bool) (stopDetail : String) : List Event × InstanceStatus :=
  ([Event.setStatus .stopping, Event.refreshTable,
    Event.writeCompose, Event.runAction "stop"] ++
   (if stopOk then [Event.setStatus .stopped, Event.saveConfig]
    else [Event.setStatus .error, Event.showError ("Failed to stop: " ++ stopDetail)]) ++
   [Event.refreshTable],
   if stopOk then .stopped else .error)

/-- `_start_async`: set `STARTING`, refresh, invoke `up`; on success set the
status observed by `_get_compose_status` and persist, on failure set `ERROR`
and surface the diagnostic (`"no output"` when empty); refresh again. -/
def startAsyncRun (upOk : Bool) (upDetail : String) (observed : InstanceStatus) :
    List Event × InstanceStatus :=
  ([Event.setStatus .starting, Event.refreshTable,
    Event.writeCompose, Event.runAction "up"] ++
   (if upOk then [Event.setStatus observed, Event.saveConfig]
    else [Event.setStatus .error,
          Event.showError ("Failed to start: " ++
            (if upDetail = "" then "no output" else upDetail))]) ++
   [Event.refreshTable],
   if upOk then observed else .error)

/-- `_delete_async`: when the record is `RUNNING`, first run the whole
`_stop_async` flow; then invoke `rm` (with volumes); on success pop the
record from the registry and persist, on failure surface the diagnostic;
refresh.  Returns (events, resulting registry, record's final status). -/
def deleteAsyncRun (st0 : InstanceStatus) (stopOk : Bool) (stopDetail : String)
    (rmOk : Bool) (rmDetail : String)
    (insts : List (String × ToadboxInstance)) (name : String) :
    List Event × List (String × ToadboxInstance) × InstanceStatus :=
  let stopPart := if st0 = .running then stopAsyncRun stopOk stopDetail else ([], st0)
  if rmOk then
    (stopPart.1 ++ [Event.writeCompose, Event.runAction "rm"] ++
       [Event.saveConfig, Event.refreshTable],
     eraseKey insts name, stopPart.2)
  else
    (stopPart.1 ++ [Event.writeCompose, Event.runAction "rm"] ++
       [Event.showError ("Failed to delete: " ++ rmDetail), Event.refreshTable],
     insts, stopPart.2)

/-! ## Concrete instances used by witnesses and counterexamples -/

/-- A first demo record (SSH 2222, RDP 3390). -/
def demoA : ToadboxInstance := { name := "a", workspace_folder := "/w/a" }

/-- A second demo record (SSH 2223, RDP 3391). -/
def demoB : ToadboxInstance :=
  { name := "b", workspace_folder := "/w/b", ssh_port := 2223, rdp_port := 3391 }

/-- A new instance clashing with `demoB` on SSH and with `demoA` on RDP. -/
def demoCross : ToadboxInstance :=
  { name := "c", workspace_folder := "/w/c", ssh_port := 2223, rdp_port := 3390 }

/-- A new instance clashing with `demoA` on SSH only. -/
def demoSshClash : ToadboxInstance :=
  { name := "d", workspace_folder := "/w/d", ssh_port := 2222, rdp_port := 3395 }

/-- Two records whose distinct names sanitize to the same service id. -/
def demoDash : ToadboxInstance :=
  { name := "dev-box", workspace_folder := "/w/dev-box" }

/-- See `demoDash`: same service id, different name. -/
def demoUnderscore : ToadboxInstance :=
  { name := "dev_box", workspace_folder := "/w/dev_box", ssh_port := 2223, rdp_port := 3391 }

/-- The property §8 of the spec asserts of service identifiers: non-empty,
only lowercase alphanumerics and underscores, and no leading or trailing
underscore. -/
def goodServiceId (s : String) : Bool :=
  !s.toList.isEmpty &&
  s.toList.all (fun c => c.isDigit || c.isLower || c == '_') &&
  s.toList.head? != some '_' &&
  s.toList.getLast? != some '_'

/-! ## Helper lemmas -/

theorem eraseKey_find?_none (name : String) (insts : List (String × ToadboxInstance)) :
    (eraseKey insts name).find? (fun p => p.1 == name) = none := by
  induction insts with
  | nil => rfl
  | cons h t ih =>
    by_cases hk : h.1 = name
    · simp [eraseKey, List.filter_cons, hk]
    · simp [eraseKey, List.filter_cons, List.find?, hk]

theorem insertKey_keys_exists {α : Type} (m : List (String × α)) (k : String) (v : α)
    (h : m.any (fun p => p.1 == k) = true) :
    (insertKey m k v).map Prod.fst = m.map Prod.fst := by
  have hf : (Prod.fst ∘ fun (p : String × α) => if (p.1 == k) = true then (k, v) else p)
      = Prod.fst := by
    funext p
    by_cases hp : p.1 = k <;> simp [hp]
  simp only [insertKey, h, if_true, List.map_map, hf]

theorem insertKey_of_not_exists {α : Type} (m : List (String × α)) (k : String) (v : α)
    (h : ¬ (m.any (fun p => p.1 == k) = true)) :
    insertKey m k v = m ++ [(k, v)] := by
  simp [insertKey, h]

theorem services_count (insts : List ToadboxInstance) (accS : List (String × ComposeService))
    (hnd : (accS.map Prod.fst).Nodup) :
    (insts.foldl (fun a inst => insertKey a inst.service_name (buildService inst)) accS).length =
      ((accS.map Prod.fst).toFinset ∪ (insts.map ToadboxInstance.service_name).toFinset).card := by
  induction insts generalizing accS with
  | nil =>
    simp [List.toFinset_card_of_nodup hnd]
  | cons h t ih =>
    simp only [List.foldl_cons, List.map_cons, List.toFinset_cons]
    by_cases hmem : accS.any (fun p => p.1 == h.service_name) = true
    · have hkeys := insertKey_keys_exists accS h.service_name (buildService h) hmem
      have hin : h.service_name ∈ accS.map Prod.fst := by
        rcases List.any_eq_true.mp hmem with ⟨p, hp, he⟩
        exact List.mem_map.mpr ⟨p, hp, (beq_iff_eq.mp he)⟩
      rw [ih _ (by rw [hkeys]; exact hnd), hkeys]
      congr 1
      rw [Finset.union_insert,
        Finset.insert_eq_self.mpr (Finset.mem_union_left _ (List.mem_toFinset.mpr hin))]
    · rw [insertKey_of_not_exists _ _ _ hmem]
      have hnd' : ((accS ++ [(h.service_name, buildService h)]).map Prod.fst).Nodup := by
        simp only [List.map_append, List.map_cons, List.map_nil]
        rw [List.nodup_append]
        refine ⟨hnd, List.nodup_singleton _, ?_⟩
        intro a ha hb
        simp only [List.mem_singleton] at hb
        subst hb
        exact absurd (List.any_eq_true.mpr (by
          rcases List.mem_map.mp ha with ⟨p, hp, he⟩
          exact ⟨p, hp, beq_iff_eq.mpr he⟩)) hmem
      rw [ih _ hnd']
      congr 1
      simp only [List.map_append, List.map_cons, List.map_nil, List.toFinset_append,
        List.toFinset_cons, List.toFinset_nil]
      rw [Finset.union_assoc, Finset.insert_union, Finset.empty_union]

theorem build_services_fold (insts : List ToadboxInstance)
    (accS : List (String × ComposeService)) (accV : List (String × String)) :
    (insts.foldl
      (fun (acc : List (String × ComposeService) × List (String × String)) inst =>
        let sn := inst.service_name
        (insertKey acc.1 sn (buildService inst),
         insertKey (insertKey acc.2 (sn ++ "_docker_data") (sn ++ "_docker_data"))
           (sn ++ "_home") (sn ++ "_home")))
      (accS, accV)).1 =
      insts.foldl (fun a inst => insertKey a inst.service_name (buildService inst)) accS := by
  induction insts generalizing accS accV with
  | nil => rfl
  | cons h t ih => exact ih _ _

theorem portConflict_isSome_of_ssh (insts : List (String × ToadboxInstance))
    (inst : ToadboxInstance)
    (h : insts.any (fun p => p.2.ssh_port == inst.ssh_port) = true) :
    (portConflict? insts inst).isSome = true := by
  induction insts with
  | nil => simp at h
  | cons hd t ih =>
    simp only [List.any_cons, Bool.or_eq_true] at h
    by_cases hc : conflictRoles hd.2 inst ≠ []
    · simp [portConflict?, List.findSome?_cons, hc]
    · rcases h with h | h
      · exfalso
        apply hc
        have hr : conflictRoles hd.2 inst =
            "SSH" :: (if hd.2.rdp_port = inst.rdp_port then ["RDP"] else []) := by
          simp [conflictRoles, beq_iff_eq.mp h]
        simp [hr]
      · have ht := ih h
        simpa [portConflict?, List.findSome?_cons, hc] using ht

theorem findFreePort_le (fuel : Nat) (used : List Int) (p : Int) :
    p ≤ findFreePort fuel used p := by
  induction fuel generalizing p with
  | zero => exact le_refl p
  | succ fuel ih =>
    rw [findFreePort]
    by_cases hp : p ∈ used
    · simp only [hp, if_pos]
      exact le_trans (by omega) (ih (p + 1))
    · simp [hp]

theorem findFreePort_below_used (fuel : Nat) (used : List Int) (p q : Int)
    (hpq : p ≤ q) (hq : q < findFreePort fuel used p) : q ∈ used := by
  induction fuel generalizing p with
  | zero => rw [findFreePort] at hq; omega
  | succ fuel ih =>
    rw [findFreePort] at hq
    by_cases hp : p ∈ used
    · simp only [hp, if_pos] at hq
      rcases eq_or_lt_of_le hpq with rfl | hlt
      · exact hp
      · exact ih (p + 1) (by omega) hq
    · simp [hp] at hq
      omega

theorem findFreePort_free (fuel : Nat) (used : List Int) (p : Int)
    (hfuel : (used.toFinset.filter (fun x => p ≤ x)).card < fuel) :
    findFreePort fuel used p ∉ used := by
  induction fuel generalizing p with
  | zero => exact absurd hfuel (Nat.not_lt_zero _)
  | succ fuel ih =>
    rw [findFreePort]
    by_cases hp : p ∈ used
    · simp only [hp, if_pos]
      apply ih
      have hmem : p ∈ used.toFinset.filter (fun x => p ≤ x) := by
        simp [List.mem_toFinset, hp]
      have hsub : (used.toFinset.filter (fun x => p + 1 ≤ x)) ⊆
          (used.toFinset.filter (fun x => p ≤ x)).erase p := by
        intro x hx
        simp only [Finset.mem_filter, List.mem_toFinset] at hx
        refine Finset.mem_erase.mpr ⟨by omega, ?_⟩
        simp only [Finset.mem_filter, List.mem_toFinset]
        exact ⟨hx.1, by omega⟩
      have hle := Finset.card_le_card hsub
      rw [Finset.card_erase_of_mem hmem] at hle
      have hpos := Finset.card_pos.mpr ⟨p, hmem⟩
      omega
    · simp [hp]

theorem usedPorts_filter_card_lt (used : List Int) (p : Int) :
    (used.toFinset.filter (fun x => p ≤ x)).card < used.length + 1 := by
  have h1 : (used.toFinset.filter (fun x => p ≤ x)).card ≤ used.toFinset.card :=
    Finset.card_filter_le _ _
  have h2 := used.toFinset_card_le
  omega

theorem toNat_ofNat_small (n : Nat) (h : n < 55296) : (Char.ofNat n).toNat = n := by
  unfold Char.ofNat
  rw [dif_pos (Or.inl h)]
  simp [Char.ofNatAux, Char.toNat, UInt32.ofNat', UInt32.toNat]

theorem char_toNat_inj {c d : Char} (h : c.toNat = d.toNat) : c = d := by
  have h2 := Char.ofNat_toNat c
  rw [h, Char.ofNat_toNat] at h2
  exact h2.symm

theorem isUpper_iff (c : Char) : c.isUpper = true ↔ 65 ≤ c.toNat ∧ c.toNat ≤ 90 := by
  simp only [Char.isUpper, Bool.and_eq_true, decide_eq_true_eq, ge_iff_le,
    UInt32.le_def, BitVec.le_def]
  constructor
  · rintro ⟨h1, h2⟩
    constructor <;> simpa [Char.toNat, UInt32.toNat] using ‹_›
  · rintro ⟨h1, h2⟩
    constructor <;> simp [Char.toNat, UInt32.toNat] at h1 h2 ⊢ <;> omega

theorem isLower_iff (c : Char) : c.isLower = true ↔ 97 ≤ c.toNat ∧ c.toNat ≤ 122 := by
  simp only [Char.isLower, Bool.and_eq_true, decide_eq_true_eq, ge_iff_le,
    UInt32.le_def, BitVec.le_def]
  constructor
  · rintro ⟨h1, h2⟩
    constructor <;> simpa [Char.toNat, UInt32.toNat] using ‹_›
  · rintro ⟨h1, h2⟩
    constructor <;> simp [Char.toNat, UInt32.toNat] at h1 h2 ⊢ <;> omega

theorem isDigit_iff (c : Char) : c.isDigit = true ↔ 48 ≤ c.toNat ∧ c.toNat ≤ 57 := by
  simp only [Char.isDigit, Bool.and_eq_true, decide_eq_true_eq, ge_iff_le,
    UInt32.le_def, BitVec.le_def]
  constructor
  · rintro ⟨h1, h2⟩
    constructor <;> simpa [Char.toNat, UInt32.toNat] using ‹_›
  · rintro ⟨h1, h2⟩
    constructor <;> simp [Char.toNat, UInt32.toNat] at h1 h2 ⊢ <;> omega

theorem toNat_toLower (c : Char) : (Char.toLower c).toNat =
    if 65 ≤ c.toNat ∧ c.toNat ≤ 90 then c.toNat + 32 else c.toNat := by
  rw [Char.toLower]
  by_cases h : 65 ≤ c.toNat ∧ c.toNat ≤ 90
  · rw [if_pos h, if_pos h]
    exact toNat_ofNat_small _ (by omega)
  · rw [if_neg h, if_neg h]

theorem collapseAux_all (repl : Char) (b : Bool) (l : List Char) :
    (collapseAux repl b l).all (fun c => isAlnumAscii c || c == repl) = true := by
  induction l generalizing b with
  | nil => rfl
  | cons c cs ih =>
    rw [collapseAux]
    by_cases hc : isAlnumAscii c = true
    · rw [if_pos hc, List.all_cons, ih false]
      simp [hc]
    · rw [if_neg hc]
      cases b
      · rw [if_neg (by simp), List.all_cons, ih true]
        simp
      · rw [if_pos rfl]
        exact ih true

theorem collapseAux_any (repl : Char) (b : Bool) (l : List Char)
    (h : l.any isAlnumAscii = true) :
    (collapseAux repl b l).any isAlnumAscii = true := by
  induction l generalizing b with
  | nil => simp at h
  | cons c cs ih =>
    rw [collapseAux]
    rw [List.any_cons] at h
    by_cases hc : isAlnumAscii c = true
    · simp [hc]
    · simp only [hc, Bool.false_or] at h
      by_cases hb : b = true
      · subst hb
        simpa [hc] using ih true h
      · simp only [Bool.not_eq_true] at hb
        subst hb
        simp only [hc, Bool.false_eq_true, if_neg, not_false_iff, if_pos]
        simp only [List.any_cons, Bool.or_eq_true]
        exact Or.inr (ih true h)

theorem any_dropWhile_of_excl (p q : Char → Bool) (l : List Char)
    (hpq : ∀ c, q c = true → p c = false) (h : l.any q = true) :
    (l.dropWhile p).any q = true := by
  induction l with
  | nil => simp at h
  | cons c cs ih =>
    rw [List.any_cons] at h
    by_cases hp : p c = true
    · rw [List.dropWhile_cons_of_pos hp]
      rcases Bool.or_eq_true _ _ |>.mp h with hq | hq
      · rw [hpq c hq] at hp
        simp at hp
      · exact ih hq
    · rw [List.dropWhile_cons_of_neg (by simpa using hp)]
      exact h

theorem head?_dropWhile_false (p : Char → Bool) (l : List Char) (c : Char)
    (h : (l.dropWhile p).head? = some c) : p c = false := by
  induction l with
  | nil => simp at h
  | cons a t ih =>
    by_cases hp : p a = true
    · rw [List.dropWhile_cons_of_pos hp] at h
      exact ih h
    · rw [List.dropWhile_cons_of_neg (by simpa using hp)] at h
      simp only [List.head?_cons, Option.some_inj] at h
      subst h
      simpa using hp

theorem stripChar_prefix (t : Char) (l : List Char) :
    stripChar t l <+: l.dropWhile (· == t) := by
  have hs : (l.dropWhile (· == t)).reverse.dropWhile (· == t) <:+
      (l.dropWhile (· == t)).reverse := List.dropWhile_suffix _
  have hp := List.reverse_prefix.mpr hs
  rwa [List.reverse_reverse] at hp

theorem stripChar_head_false (t : Char) (l : List Char) (c : Char)
    (h : (stripChar t l).head? = some c) : (c == t) = false := by
  rcases stripChar_prefix t l with ⟨ts, hts⟩
  apply head?_dropWhile_false (· == t) l c
  rw [← hts, List.head?_append, h]
  rfl

theorem stripChar_getLast_false (t : Char) (l : List Char) (c : Char)
    (h : (stripChar t l).getLast? = some c) : (c == t) = false := by
  rw [stripChar, List.getLast?_reverse] at h
  exact head?_dropWhile_false (· == t) _ c h

theorem stripChar_any (t : Char) (l : List Char)
    (hnt : ∀ c, isAlnumAscii c = true → (c == t) = false)
    (h : l.any isAlnumAscii = true) : (stripChar t l).any isAlnumAscii = true := by
  rw [stripChar, List.any_reverse]
  apply any_dropWhile_of_excl _ _ _ hnt
  rw [List.any_reverse]
  exact any_dropWhile_of_excl _ _ _ hnt h

theorem stripChar_subset (t : Char) (l : List Char) :
    ∀ c ∈ stripChar t l, c ∈ l := by
  intro c hc
  rw [stripChar, List.mem_reverse] at hc
  have h1 := (List.dropWhile_sublist (· == t)).subset hc
  rw [List.mem_reverse] at h1
  exact (List.dropWhile_sublist _).subset h1

theorem underscore_not_alnum (c : Char) (h : isAlnumAscii c = true) :
    (c == '_') = false := by
  by_cases he : (c == '_') = true
  · have hc : c = '_' := beq_iff_eq.mp he
    subst hc
    simp [isAlnumAscii, Char.isDigit, Char.isUpper, Char.isLower] at h
  · simpa using he

theorem toLower_good (c : Char) (h : (isAlnumAscii c || c == '_') = true) :
    ((Char.toLower c).isDigit || (Char.toLower c).isLower || (Char.toLower c == '_')) = true := by
  have ht := toNat_toLower c
  rcases Bool.or_eq_true _ _ |>.mp h with ha | hu
  · simp only [isAlnumAscii] at ha
    rcases Bool.or_eq_true _ _ |>.mp ha with hdu | hlo
    · rcases Bool.or_eq_true _ _ |>.mp hdu with hd | hup
      · have hdn := (isDigit_iff c).mp hd
        rw [if_neg (by omega)] at ht
        have hg : (Char.toLower c).isDigit = true := (isDigit_iff _).mpr (by omega)
        simp [hg]
      · have hn := (isUpper_iff c).mp hup
        rw [if_pos (by omega)] at ht
        have hg : (Char.toLower c).isLower = true := (isLower_iff _).mpr (by omega)
        simp [hg]
    · have hn := (isLower_iff c).mp hlo
      rw [if_neg (by omega)] at ht
      have hg : (Char.toLower c).isLower = true := (isLower_iff _).mpr (by omega)
      simp [hg]
  · have hc : c = '_' := beq_iff_eq.mp hu
    subst hc
    rfl

theorem toLower_ne_underscore (c : Char) (h : (c == '_') = false) :
    (Char.toLower c == '_') = false := by
  have ht := toNat_toLower c
  by_cases he : (Char.toLower c == '_') = true
  · exfalso
    have h95 : (Char.toLower c).toNat = 95 := by
      rw [beq_iff_eq.mp he]
      rfl
    by_cases hup : 65 ≤ c.toNat ∧ c.toNat ≤ 90
    · rw [if_pos hup] at ht
      omega
    · rw [if_neg hup] at ht
      have hc : c = '_' := char_toNat_inj (by rw [← ht, h95]; rfl)
      rw [hc] at h
      simp at h
  · simpa using he

/-! ## Claim theorems -/

/-- Claim C1 (amended): deleting a `RUNNING` instance first runs the stop flow
— the record is set to `Stopping`, the `stop` action is invoked, and the
record is set to `Stopped` (on success) or `Error` (on failure) — all before
the `rm` action is issued; the `rm` action is then issued regardless of
whether the stop succeeded. -/
theorem delete_running_stops_before_remove (stopOk rmOk : Bool)
    (stopDetail rmDetail : String)
    (insts : List (String × ToadboxInstance)) (name : String) :
    List.Sublist
      [Event.setStatus .stopping, Event.runAction "stop",
       Event.setStatus (if stopOk then .stopped else .error), Event.runAction "rm"]
      (deleteAsyncRun .running stopOk stopDetail rmOk rmDetail insts name).1 := by
  cases stopOk <;> cases rmOk <;> simp [deleteAsyncRun, stopAsyncRun]

/-- Claim C1, counterexample to the original claim: when the stop invocation
fails during delete of a `RUNNING` instance (record left in `Error`), the
`rm` action is still issued — the delete does not stop short. -/
theorem delete_remove_issued_after_failed_stop :
    Event.runAction "rm" ∈
      (deleteAsyncRun .running false "boom" true "" [("a", demoA)] "a").1 ∧
    (deleteAsyncRun .running false "boom" true "" [("a", demoA)] "a").2.2 =
      InstanceStatus.error ∧
    (deleteAsyncRun .running false "boom" true "" [("a", demoA)] "a").2.1 = [] := by
  decide

/-- Claim C2 (amended): when a start or stop invocation fails, the record's
status is set to `Error` in memory, but `save_config` is not invoked — the
registry is persisted only on the success path, so the `Error` status is not
made durable. -/
theorem invocation_failure_sets_error_without_persist (detail : String)
    (observed : InstanceStatus) :
    (startAsyncRun false detail observed).2 = InstanceStatus.error ∧
    Event.saveConfig ∉ (startAsyncRun false detail observed).1 ∧
    (stopAsyncRun false detail).2 = InstanceStatus.error ∧
    Event.saveConfig ∉ (stopAsyncRun false detail).1 := by
  refine ⟨rfl, ?_, rfl, ?_⟩ <;> simp [startAsyncRun, stopAsyncRun]

/-- Claim C2, counterexample to the original claim: a failing start leaves the
record in `Error` but never runs `save_config`, so the registry is not
persisted afterwards. -/
theorem start_failure_not_persisted_cex :
    (startAsyncRun false "boom" .stopped).2 = InstanceStatus.error ∧
    Event.saveConfig ∉ (startAsyncRun false "boom" .stopped).1 := by
  decide

/-- Claim C3 (amended): the rendered manifest contains one service per
*distinct derived service identifier*: the number of services equals the
number of distinct `service_name` values over the registry's records (hence
one per record exactly when the records' service names are pairwise
distinct). -/
theorem compose_services_count_distinct_ids (insts : List ToadboxInstance) :
    (build_compose_spec insts).services.length =
      (insts.map ToadboxInstance.service_name).toFinset.card := by
  show (insts.foldl _
    (([], []) : List (String × ComposeService) × List (String × String))).1.length = _
  rw [build_services_fold insts [] [], services_count insts [] (by simp)]
  simp

/-- Claim C3, counterexample to the original claim: the two distinct instance
names `"dev-box"` and `"dev_box"` sanitize to the same service id, so a
registry with those two records renders a manifest with one service, not
two. -/
theorem compose_services_collapse_cex :
    (build_compose_spec [demoDash, demoUnderscore]).services.length = 1 ∧
    ([demoDash, demoUnderscore] : List ToadboxInstance).length = 2 ∧
    demoDash.name ≠ demoUnderscore.name := by
  decide

/-- Claim C4 (amended): for every instance whose name contains at least one
ASCII alphanumeric character, the derived `service_name` is non-empty,
contains only lowercase alphanumerics and underscores, and has no leading or
trailing underscore.  (Names with no alphanumeric at all fall back to the
workspace folder's basename, which need not satisfy this.) -/
theorem service_name_sanitized_of_alnum (inst : ToadboxInstance)
    (h : inst.name.toList.any isAlnumAscii = true) :
    goodServiceId inst.service_name = true := by
  have hne : inst.name ≠ "" := by
    intro he
    rw [he] at h
    simp at h
  have hany : (stripChar '_' (collapseAux '_' false inst.name.toList)).any isAlnumAscii = true :=
    stripChar_any _ _ underscore_not_alnum (collapseAux_any _ _ _ h)
  have hmne : stripChar '_' (collapseAux '_' false inst.name.toList) ≠ [] := by
    rcases List.any_eq_true.mp hany with ⟨x, hx, _⟩
    exact List.ne_nil_of_mem hx
  have hrne : asciiLower (stripChar '_' (collapseAux '_' false inst.name.toList)) ≠ [] := by
    rw [asciiLower]
    simpa using hmne
  have hsn : inst.service_name =
      String.mk (asciiLower (stripChar '_' (collapseAux '_' false inst.name.toList))) := by
    rw [ToadboxInstance.service_name]
    simp only [hne, ne_eq, not_false_iff, if_pos]
    rw [if_pos]
    intro hcon
    exact hrne (congrArg String.data hcon)
  rw [hsn]
  have htl : (String.mk (asciiLower (stripChar '_'
        (collapseAux '_' false inst.name.toList)))).toList
      = asciiLower (stripChar '_' (collapseAux '_' false inst.name.toList)) := rfl
  have hall : (asciiLower (stripChar '_' (collapseAux '_' false inst.name.toList))).all
      (fun c => c.isDigit || c.isLower || c == '_') = true := by
    rw [List.all_eq_true]
    intro x hx
    rcases List.mem_map.mp hx with ⟨c, hc, rfl⟩
    have hcl : c ∈ collapseAux '_' false inst.name.toList := stripChar_subset _ _ c hc
    have hgood := List.all_eq_true.mp (collapseAux_all '_' false inst.name.toList) c hcl
    exact toLower_good c hgood
  obtain ⟨c, m', hcm⟩ := List.exists_cons_of_ne_nil hmne
  have hhead : (asciiLower (stripChar '_' (collapseAux '_' false inst.name.toList))).head?
      = some (Char.toLower c) := by
    rw [asciiLower, List.head?_map, hcm]
    rfl
  have hchu : (c == '_') = false := by
    apply stripChar_head_false '_' (collapseAux '_' false inst.name.toList) c
    rw [hcm]
    rfl
  have hlast : ∃ d, (stripChar '_'
      (collapseAux '_' false inst.name.toList)).getLast? = some d := by
    rw [hcm]
    exact ⟨(c :: m').getLast (by simp), List.getLast?_eq_getLast _ _⟩
  obtain ⟨d, hd⟩ := hlast
  have hdu : (d == '_') = false :=
    stripChar_getLast_false '_' (collapseAux '_' false inst.name.toList) d hd
  have hlast2 : (asciiLower (stripChar '_' (collapseAux '_' false inst.name.toList))).getLast?
      = some (Char.toLower d) := by
    rw [asciiLower, List.getLast?_map, hd]
    rfl
  rw [goodServiceId]
  rw [htl, hall, hhead, hlast2]
  have h1 := toLower_ne_underscore c hchu
  have h2 := toLower_ne_underscore d hdu
  simp [List.isEmpty_iff, hrne, h1, h2, beq_eq_false_iff_ne.mp h1, beq_eq_false_iff_ne.mp h2]
  exact hrne

/-- Claim C4, witness: the name `"dev-box"` contains alphanumerics, and its
derived service id satisfies the sanitization property. -/
theorem service_name_sanitized_witness :
    (("dev-box".toList.any isAlnumAscii) = true) ∧
    goodServiceId (ToadboxInstance.service_name demoDash) = true :=
  ⟨by decide, service_name_sanitized_of_alnum demoDash (by decide)⟩

/-- Claim C4, counterexample to the original claim: the name `"!!!"` (accepted
by the create flow) has no alphanumeric character, so `service_name` falls
back to the workspace folder basename `"foo.bar"`, which contains a dot and
violates the claimed character set. -/
theorem service_name_fallback_unsanitized_cex :
    ToadboxInstance.service_name { name := "!!!", workspace_folder := "/tmp/foo.bar" }
      = "foo.bar" ∧
    goodServiceId (ToadboxInstance.service_name
      { name := "!!!", workspace_folder := "/tmp/foo.bar" }) = false := by
  decide

set_option maxHeartbeats 2000000 in
/-- Claim C5 (amended): deserialization tolerates exactly the derived/legacy
keys — `service_name` and `hostname` are popped, and `vnc_port` is renamed to
`rdp_port` when `rdp_port` is absent — while any other unknown key makes
`from_dict` raise a `TypeError`.  The tolerance part: a full serialized
payload with `service_name`/`hostname` appended still deserializes to the
original record, and a legacy payload with only `vnc_port` maps it onto
`rdp_port`. -/
theorem from_dict_tolerates_derived_keys (inst : ToadboxInstance)
    (s h : String) (n w : String) (p : Int) :
    ToadboxInstance.from_dict
        (ToadboxInstance.to_dict inst ++
          [("service_name", Json.jstr s), ("hostname", Json.jstr h)]) =
      Except.ok inst ∧
    ToadboxInstance.from_dict
        [("name", Json.jstr n), ("workspace_folder", Json.jstr w),
         ("vnc_port", Json.jint p)] =
      Except.ok { name := n, workspace_folder := w, rdp_port := p } := by
  constructor
  · obtain ⟨name, wf, cc, mm, pr, sp, rp, pu, pg, st, cf, ci⟩ := inst
    cases st <;> cases cf <;> cases ci <;> rfl
  · rfl

/-- Claim C5, counterexample to the original claim: a payload carrying one
extra unknown field (`favorite_color`) does not deserialize — `cls(**payload)`
raises a `TypeError` instead of tolerating it. -/
theorem from_dict_unknown_key_cex :
    ToadboxInstance.from_dict
        (ToadboxInstance.to_dict { name := "t", workspace_folder := "/w" } ++
          [("favorite_color", Json.jstr "green")]) =
      Except.error "TypeError: unexpected keyword argument" := by
  rfl

/-- Claim C6 (amended): `load_config` yields the empty registry when the file
is missing, unreadable (`OSError`), or not valid JSON (`JSONDecodeError`);
but JSON content whose record payloads fail to deserialize (for example an
unknown status string) raises instead of yielding an empty registry. -/
theorem load_config_empty_on_parse_failures :
    load_config .missing = Except.ok [] ∧
    load_config .osError = Except.ok [] ∧
    load_config .badJson = Except.ok [] ∧
    load_config (.content (Json.jobj [("instances", Json.jobj
        [("a", Json.jobj [("name", Json.jstr "a"), ("workspace_folder", Json.jstr "/w"),
                          ("favorite_color", Json.jstr "green")])])])) =
      Except.error "TypeError: unexpected keyword argument" := by
  exact ⟨rfl, rfl, rfl, rfl⟩

/-- Claim C6, counterexample to the original claim: file content that parses
as JSON but whose record fails to deserialize (status `"bogus"`) makes
`load_config` raise a `ValueError` rather than return an empty registry. -/
theorem load_config_raises_on_bad_status_cex :
    load_config (.content (Json.jobj [("instances", Json.jobj
        [("a", Json.jobj [("name", Json.jstr "a"), ("workspace_folder", Json.jstr "/w"),
                          ("status", Json.jstr "bogus")])])])) =
      Except.error "ValueError: bogus is not a valid InstanceStatus" := by
  rfl

/-- Claim C7 (amended): creating an instance whose `ssh_port` collides with
some existing instance's `ssh_port` is always rejected — the registry is
unchanged and nothing is persisted — and the diagnostic shown is the conflict
message for the *first* existing instance (in registry order) that conflicts
in either role, naming that instance and its conflicting role(s); the SSH
role is named when that first-conflicting instance is the SSH one. -/
theorem create_ssh_conflict_rejected (insts : List (String × ToadboxInstance))
    (inst : ToadboxInstance)
    (h : insts.any (fun p => p.2.ssh_port == inst.ssh_port) = true) :
    (create_instance insts inst).1 = insts ∧
    (create_instance insts inst).2.1 = false ∧
    (create_instance insts inst).2.2 =
      (portConflict? insts inst).map (fun p => conflictMsg p.1 p.2) ∧
    (portConflict? insts inst).isSome = true := by
  have hs := portConflict_isSome_of_ssh insts inst h
  cases hpc : portConflict? insts inst with
  | none => rw [hpc] at hs; simp at hs
  | some q =>
    obtain ⟨n, roles⟩ := q
    simp [create_instance, hpc]

/-- Claim C7, witness: a registry with one record at SSH 2222 rejects a new
instance also requesting SSH 2222, leaving the registry unchanged, persisting
nothing, and showing the first conflict's diagnostic. -/
theorem create_ssh_conflict_rejected_witness :
    (([("a", demoA)] : List (String × ToadboxInstance)).any
        (fun p => p.2.ssh_port == demoSshClash.ssh_port) = true) ∧
    ((create_instance [("a", demoA)] demoSshClash).1 = [("a", demoA)] ∧
     (create_instance [("a", demoA)] demoSshClash).2.1 = false ∧
     (create_instance [("a", demoA)] demoSshClash).2.2 =
       (portConflict? [("a", demoA)] demoSshClash).map (fun p => conflictMsg p.1 p.2) ∧
     (portConflict? [("a", demoA)] demoSshClash).isSome = true) :=
  ⟨by decide, create_ssh_conflict_rejected [("a", demoA)] demoSshClash (by decide)⟩

/-- Claim C7, counterexample to the original claim: the new instance collides
with `demoB` on SSH, yet the diagnostic names `demoA` (whose conflict is RDP
only, met first in registry order) and never mentions the SSH role. -/
theorem create_conflict_diagnostic_cex :
    demoB.ssh_port = demoCross.ssh_port ∧
    (create_instance [("a", demoA), ("b", demoB)] demoCross).2.2 =
      some "Ports already in use by 'a' (RDP)" ∧
    hasSubstring "SSH".toList "Ports already in use by 'a' (RDP)".toList = false := by
  decide

/-- Claim C8: for every registry and every pair of bases, `suggest_ports`
returns — independently per role — the smallest port that is at least the
role's base and not used by an existing record in that role; in particular a
registry with SSH ports {2222, 2223} and base 2222 yields SSH port 2224. -/
theorem suggest_ports_least_free (insts : List ToadboxInstance)
    (ssh_start rdp_start : Int) :
    ssh_start ≤ (suggest_ports insts ssh_start rdp_start).1 ∧
    (suggest_ports insts ssh_start rdp_start).1 ∉ insts.map (·.ssh_port) ∧
    Finset.Icc ssh_start ((suggest_ports insts ssh_start rdp_start).1 - 1) ⊆
      (insts.map (·.ssh_port)).toFinset ∧
    rdp_start ≤ (suggest_ports insts ssh_start rdp_start).2 ∧
    (suggest_ports insts ssh_start rdp_start).2 ∉ insts.map (·.rdp_port) ∧
    Finset.Icc rdp_start ((suggest_ports insts ssh_start rdp_start).2 - 1) ⊆
      (insts.map (·.rdp_port)).toFinset ∧
    (suggest_ports [demoA, demoB] 2222 3390).1 = 2224 := by
  simp only [suggest_ports]
  refine ⟨findFreePort_le _ _ _, findFreePort_free _ _ _ (usedPorts_filter_card_lt _ _), ?_,
    findFreePort_le _ _ _, findFreePort_free _ _ _ (usedPorts_filter_card_lt _ _), ?_,
    by decide⟩
  · intro q hq
    simp only [Finset.mem_Icc] at hq
    exact List.mem_toFinset.mpr
      (findFreePort_below_used ((insts.map (·.ssh_port)).length + 1) _ _ q hq.1 (by omega))
  · intro q hq
    simp only [Finset.mem_Icc] at hq
    exact List.mem_toFinset.mpr
      (findFreePort_below_used ((insts.map (·.rdp_port)).length + 1) _ _ q hq.1 (by omega))

set_option maxHeartbeats 2000000 in
/-- Claim C9: serializing any record with `to_dict` and deserializing the
result with `from_dict` yields the original record, for every status value
and every combination of optional fields. -/
theorem to_dict_from_dict_roundtrip (inst : ToadboxInstance) :
    ToadboxInstance.from_dict (ToadboxInstance.to_dict inst) = Except.ok inst := by
  obtain ⟨name, wf, cc, mm, pr, sp, rp, pu, pg, st, cf, ci⟩ := inst
  cases st <;> cases cf <;> cases ci <;> rfl

/-- Claim C10: in the delete flow, the record is removed from the registry
exactly when the `rm` invocation succeeds: after a successful remove the name
no longer resolves, and after a failed remove the registry (and hence the
record, if it was present) is unchanged. -/
theorem delete_removes_record_iff_rm_succeeds (st0 : InstanceStatus)
    (stopOk rmOk : Bool) (stopDetail rmDetail : String)
    (insts : List (String × ToadboxInstance)) (name : String) :
    ((deleteAsyncRun st0 stopOk stopDetail rmOk rmDetail insts name).2.1.find?
        (fun p => p.1 == name)) =
      (if rmOk then none else insts.find? (fun p => p.1 == name)) := by
  cases rmOk
  · simp [deleteAsyncRun]
  · simp [deleteAsyncRun, eraseKey_find?_none]
